import Mathlib

/-!
Verification development for the camera-control core of the supersplat viewer
(`src/camera-manager.ts`).  The definitions below are shallow embeddings of the
functions in that file: JavaScript numbers are modelled as rationals where the
code is exact arithmetic and as reals where it calls transcendental functions
(`Math.acos`, `Math.sqrt`, `Math.PI`); JavaScript `null`/`undefined` become
`Option`; thrown `TypeError`s on member access of `null` become an explicit
error value.  Helper classes that live outside `camera-manager.ts` (the
`Camera` pose class, the controllers, `easeOut`) are not part of the sources;
where a definition depends on them it either takes the missing operation as an
explicit function parameter (so theorems quantify over every possible
implementation) or models it from the specification, as noted in the
doc comment.
-/

/-! ## Rational 3-vectors and the pose record -/

/-- Rational model of a PlayCanvas `Vec3`. -/
structure Vec3Q where
  x : ℚ
  y : ℚ
  z : ℚ
deriving DecidableEq

/-- Model of the `Camera` pose record: position, Euler angles and field of
view.  The `Camera` class itself is not part of the sources; the spec
describes it as position + orientation + fov, copied by value. -/
structure CameraQ where
  position : Vec3Q
  angles : Vec3Q
  fov : ℚ
deriving DecidableEq

/-! ## Transition blending (`camera-manager.ts` lines 317-355)

`BlendState` collects the mutable variables of the transition blender:
the displayed pose `camera`, the controller target `target`, the snapshot
`fromPose` (the source's `from`, a Lean keyword) and `transitionTimer`. -/

structure BlendState where
  camera : CameraQ
  target : CameraQ
  fromPose : CameraQ
  transitionTimer : ℚ
deriving DecidableEq

/-- Source constant `transitionSpeed = 1.0` (line 318). -/
def transitionSpeed : ℚ := 1

/-- Embedding of `startTransition` (lines 332-335): snapshot the currently
displayed pose into `from` and reset the progress timer to 0. -/
def startTransition (s : BlendState) : BlendState :=
  { s with fromPose := s.camera, transitionTimer := 0 }

/-- Embedding of the transition part of the per-frame `update` (lines
343-355).  `deltaTime` is the raw frame delta (drives the timer), `dt` the
possibly-zeroed delta handed to the controller (line 341).  The controller's
mutation of `target` and the pose interpolation `Camera.lerp`/`easeOut` live
outside the sources, so they are taken as function parameters `ctrlUpdate`,
`lerpFn` and `easeFn`; the branch structure is the source's. -/
def updateTransitionBlend (lerpFn : CameraQ → CameraQ → ℚ → CameraQ)
    (easeFn : ℚ → ℚ) (ctrlUpdate : ℚ → CameraQ → CameraQ)
    (s : BlendState) (deltaTime dt : ℚ) : BlendState :=
  let transitionTimer := min 1 (s.transitionTimer + deltaTime * transitionSpeed)
  let target := ctrlUpdate dt s.target
  let camera :=
    if transitionTimer < 1 then lerpFn s.fromPose target (easeFn transitionTimer)
    else target
  { camera := camera, target := target, fromPose := s.fromPose,
    transitionTimer := transitionTimer }

/-! ## Movement-settle debouncing (`camera-manager.ts` lines 323-329, 362-379)

The movement detector compares the displayed pose against the previous frame
using three thresholds; whether a frame counts as moving is the boolean
`movingNow` (line 367).  The comparison itself involves `Math.acos`, so the
step function below takes `movingNow` as an input and models exactly the
state machine on `(wasMoving, settledTime)` of lines 369-379; the returned
flag records whether `pickNearestFrameForCurrentView()` was invoked. -/

structure SettleState where
  wasMoving : Bool
  settledTime : ℚ
deriving DecidableEq

/-- Source constant `settleDelaySeconds = 0.2` (line 329). -/
def settleDelaySeconds : ℚ := 0.2

/-- One frame of the movement-settle state machine (lines 369-379). -/
def settleStep (s : SettleState) (movingNow : Bool) (deltaTime : ℚ) :
    SettleState × Bool :=
  if movingNow then
    ({ wasMoving := true, settledTime := 0 }, false)
  else if s.wasMoving then
    let t := s.settledTime + deltaTime
    if settleDelaySeconds ≤ t then
      ({ wasMoving := false, settledTime := 0 }, true)
    else
      ({ wasMoving := true, settledTime := t }, false)
  else
    (s, false)

/-- Trace of matcher invocations over a sequence of frames, each frame given
as `(movingNow, deltaTime)`. -/
def settleTrace (s : SettleState) : List (Bool × ℚ) → List Bool
  | [] => []
  | (b, d) :: rest =>
    let r := settleStep s b d
    r.2 :: settleTrace r.1 rest

/-- Final settle state after a sequence of frames. -/
def settleRunState (s : SettleState) : List (Bool × ℚ) → SettleState
  | [] => s
  | (b, d) :: rest => settleRunState (settleStep s b d).1 rest

/-! ## Camera modes and the anim-targeting event handlers -/

/-- Camera mode enumeration (`orbit`, `fly`, `anim`). -/
inductive CameraMode where
  | orbit
  | fly
  | anim
deriving DecidableEq

/-- Mutable state touched by the play/pause and scrub handlers. -/
structure MgrState where
  cameraMode : CameraMode
  animationPaused : Bool
  animCursor : ℚ
deriving DecidableEq

/-- JavaScript runtime fault: member access on `null`. -/
inductive JsError where
  | nullAccess
deriving DecidableEq

/-- Embedding of the `playPause` input-event case (lines 399-408).
`hasAnimation` is `state.hasAnimation`, true exactly when the anim
controller exists (line 303). -/
def handlePlayPause (hasAnimation : Bool) (s : MgrState) : MgrState :=
  if hasAnimation then
    if s.cameraMode = CameraMode.anim then
      { s with animationPaused := !s.animationPaused }
    else
      { s with cameraMode := CameraMode.anim, animationPaused := false }
  else s

/-- Embedding of the `scrubAnim` handler (lines 454-460).  The handler
unconditionally assigns `state.cameraMode = 'anim'` and then accesses
`controllers.anim.animState`; when no animation track was resolved
`controllers.anim` is `null` (line 173) and the access faults.  `animCtl`
is `controllers.anim` reduced to its presence. -/
def handleScrubAnim (animCtl : Option Unit) (s : MgrState) (time : ℚ) :
    Option JsError × MgrState :=
  let s1 := { s with cameraMode := CameraMode.anim }
  match animCtl with
  | none => (some JsError.nullAccess, s1)
  | some _ => (none, { s1 with animCursor := time })

/-- Embedding of the `cameraMode:changed` handler (lines 437-451).  It starts
a transition, copies the displayed pose into `target`, remembers the previous
mode, then calls `onExit` on the old controller and `onEnter` on the new one.
`getController` returns `null` exactly for `anim` without a track, so either
call faults in that case; the controllers' own effects live outside the
sources and concern only controller-private state, modelled as no-ops on the
blend state. -/
def handleCameraModeChanged (animCtl : Option Unit) (value prev : CameraMode)
    (s : BlendState) : Option JsError × BlendState × CameraMode :=
  let s1 := startTransition s
  let s2 := { s1 with target := s1.camera }
  let fromMode := prev
  if prev = CameraMode.anim ∧ animCtl = none then
    (some JsError.nullAccess, s2, fromMode)
  else if value = CameraMode.anim ∧ animCtl = none then
    (some JsError.nullAccess, s2, fromMode)
  else
    (none, s2, fromMode)

/-! ## Transform-frame dataset preparation (`camera-manager.ts` lines 25-38,
81-116, 180-213)

Raw frames carry an optional file path, an optional COLMAP id and an optional
camera-to-world matrix (`number[][]`, modelled with rational entries). -/

structure TransformFrame where
  file_path : Option String
  colmap_im_id : Option ℤ
  transform_matrix : Option (List (List ℚ))
deriving DecidableEq

/-- Case-insensitive test of one pattern letter (the regex carries the `i`
flag; its letters are ASCII, so folding is the two-cases check). -/
def charCI (c lower upper : Char) : Bool :=
  c = lower || c = upper

/-- Recognise the literal `frame_` (case-insensitively) at the head of the
character list, returning the remainder. -/
def stripFrameMarker : List Char → Option (List Char)
  | f :: r :: a :: m :: e :: u :: rest =>
    if charCI f 'f' 'F' && charCI r 'r' 'R' && charCI a 'a' 'A' &&
        charCI m 'm' 'M' && charCI e 'e' 'E' && u = '_' then
      some rest
    else none
  | _ => none

/-- Decimal value of a digit string, as `Number.parseInt(<digits>, 10)`
computes it (digits are guaranteed nonempty where this is used, so the
JavaScript `NaN` case cannot arise). -/
def decimalVal (ds : List Char) : ℕ :=
  ds.foldl (fun acc c => acc * 10 + (c.toNat - 48)) 0

/-- Tail check for the regex `(?:\.[^./\\]+)?$`: after the digit run the
string must either end, or continue with a single `.` followed by a nonempty
extension free of `.`, `/` and `\`.  (Shorter backtracked digit captures
cannot help: they leave a digit in front, which is neither `.` nor the end.) -/
def extTailOk : List Char → Bool
  | [] => true
  | '.' :: rest =>
    !rest.isEmpty && rest.all (fun c => c ≠ '.' && c ≠ '/' && c ≠ '\\')
  | _ => false

/-- Attempt to match `frame_(\d+)(?:\.[^./\\]+)?$` at the current position. -/
def matchFrameKeyAt (l : List Char) : Option ℕ :=
  match stripFrameMarker l with
  | none => none
  | some rest =>
    let ds := rest.takeWhile Char.isDigit
    let tail := rest.dropWhile Char.isDigit
    if ds.isEmpty then none
    else if extTailOk tail then some (decimalVal ds) else none

/-- JavaScript `String.prototype.match` scans start positions left to
right; return the first successful match. -/
def searchFrameKey : List Char → Option ℕ
  | [] => none
  | c :: rest =>
    match matchFrameKeyAt (c :: rest) with
    | some k => some k
    | none => searchFrameKey rest

/-- Embedding of `extractFrameSortKey` (lines 106-116): run the regex
`/frame_(\d+)(?:\.[^./\\]+)?$/i` over `frame.file_path ?? ''`; `none` models
the `Number.POSITIVE_INFINITY` sort key of unmatched names. -/
def extractFrameSortKey (frame : TransformFrame) : Option ℕ :=
  searchFrameKey (frame.file_path.getD ("")).data

/-- Frame decorated with its derived sort key, the `{...frame, sort_key}`
spread of lines 183-186. -/
structure SortedFrame where
  frame : TransformFrame
  sort_key : Option ℕ
deriving DecidableEq

/-- File path with the `?? ''` default applied (lines 192, 224). -/
def pathOf (f : SortedFrame) : String :=
  f.frame.file_path.getD ("")

/-- Effective order produced by the comparator of lines 187-193 under the
ECMAScript `Array.prototype.sort` contract: `a.sort_key - b.sort_key` decides
when it is a nonzero number; when both keys are `Infinity` the difference is
`NaN`, which `SortCompare` coerces to `+0`, i.e. the elements compare equal
and the stable sort keeps their input order (the `localeCompare` branch is
reached only for equal finite keys).  `localeCompare` is modelled as
code-point string order. -/
def frameLeB (a b : SortedFrame) : Bool :=
  match a.sort_key, b.sort_key with
  | none, none => true
  | none, some _ => false
  | some _, none => true
  | some ka, some kb =>
    if ka = kb then decide (pathOf a ≤ pathOf b) else decide (ka ≤ kb)

/-- Propositional form of `frameLeB`, for `List.insertionSort`. -/
def frameLe (a b : SortedFrame) : Prop :=
  frameLeB a b = true

instance : DecidableRel frameLe :=
  fun a b => instDecidableEqBool (frameLeB a b) true

/-- Attach the sort key to a raw frame (lines 183-186). -/
def decorateFrame (f : TransformFrame) : SortedFrame :=
  ⟨f, extractFrameSortKey f⟩

/-- Frames surviving the `Array.isArray(frame?.transform_matrix)` filter
(line 182). -/
def rawValidFrames (fs : List TransformFrame) : List TransformFrame :=
  fs.filter (fun f => f.transform_matrix.isSome)

/-- Embedding of `validTransformFrames` (lines 181-193): filter, decorate
with sort keys, and stable-sort by the comparator.  `Array.prototype.sort`
is required to be stable (ES2019); insertion sort is a stable sort, and a
stable sort's output is uniquely determined by the total preorder `frameLe`,
so this is observationally the source's sort. -/
def validTransformFrames (fs : List TransformFrame) : List SortedFrame :=
  List.insertionSort frameLe ((rawValidFrames fs).map decorateFrame)

/-- Shape validation of `frameToCamera` (lines 82-88): the matrix must be an
array with at least 3 rows whose first three rows have at least 4 entries. -/
def frameMatrixValid (m? : Option (List (List ℚ))) : Bool :=
  match m? with
  | none => false
  | some m =>
    decide (3 ≤ m.length) && decide (4 ≤ (m.getD 0 []).length) &&
      decide (4 ≤ (m.getD 1 []).length) && decide (4 ≤ (m.getD 2 []).length)

/-- Prepared dataset at the frame level (lines 199-212): frames whose
camera-to-world matrix decodes; `frameToCamera` returns `null` exactly when
the shape check fails, and such frames are skipped. -/
def preparedTransformFrames (fs : List TransformFrame) : List SortedFrame :=
  (validTransformFrames fs).filter (fun f => frameMatrixValid f.frame.transform_matrix)

/-- Claim-side sort key, following the claim's words only: search the file
name for a trailing integer token (`..._<digits>` immediately before the
extension).  Used to compare the specified key with the implemented one. -/
def specTrailingSortKey (filePath : String) : Option ℕ :=
  let cs := filePath.data
  let r := cs.reverse
  let stemRev :=
    match r.dropWhile (fun c => c ≠ '.') with
    | [] => r
    | _ :: tl => tl
  let digitsRev := stemRev.takeWhile Char.isDigit
  if digitsRev.isEmpty then none
  else
    match stemRev.dropWhile Char.isDigit with
    | '_' :: _ => some (decimalVal digitsRev.reverse)
    | _ => none

/-! ## Nearest-frame matcher (`camera-manager.ts` lines 32-38, 229-267)

The scoring uses `Math.sqrt`, `Math.acos` and `Math.PI`, so this part of the
embedding lives over the reals. -/

/-- Real model of a PlayCanvas `Vec3`. -/
structure Vec3R where
  x : ℝ
  y : ℝ
  z : ℝ

/-- Euclidean length, `Vec3.length`. -/
noncomputable def Vec3R.len (v : Vec3R) : ℝ :=
  Real.sqrt (v.x ^ 2 + v.y ^ 2 + v.z ^ 2)

/-- Euclidean distance, `Vec3.distance`. -/
noncomputable def Vec3R.distTo (a b : Vec3R) : ℝ :=
  Vec3R.len ⟨a.x - b.x, a.y - b.y, a.z - b.z⟩

/-- Dot product, `Vec3.dot`. -/
noncomputable def Vec3R.dot (a b : Vec3R) : ℝ :=
  a.x * b.x + a.y * b.y + a.z * b.z

/-- PlayCanvas `Vec3.normalize`: scale to unit length, leaving the zero
vector unchanged (the library guards on zero length). -/
noncomputable def Vec3R.normalize (v : Vec3R) : Vec3R :=
  if v.len = 0 then v else ⟨v.x / v.len, v.y / v.len, v.z / v.len⟩

/-- Prepared dataset entry (lines 32-38, 205-211): resolved camera position,
cached unit forward vector and field of view. -/
structure PreparedFrameR where
  position : Vec3R
  forward : Vec3R
  fov : ℝ

/-- Scene scale of line 234: `Math.max(1e-3, bbox.halfExtents.length() * 2)`. -/
noncomputable def sceneScale (bboxHalfExtents : Vec3R) : ℝ :=
  max 1e-3 (bboxHalfExtents.len * 2)

/-- Per-candidate dissimilarity score (lines 242-248). -/
noncomputable def frameScore (scale : ℝ) (livePos liveFwd : Vec3R)
    (liveFov : ℝ) (c : PreparedFrameR) : ℝ :=
  let positionDistNorm := livePos.distTo c.position / scale
  let directionDot := max (-1) (min 1 (liveFwd.dot c.forward))
  let directionDiffNorm := Real.arccos directionDot / Real.pi
  let fovDiffNorm := min 1 (|liveFov - c.fov| / 90)
  let behindPenalty : ℝ := if directionDot < 0 then 0.5 else 0
  positionDistNorm * 0.4 + directionDiffNorm * 0.5 + fovDiffNorm * 0.1 + behindPenalty

/-- Selection loop of lines 237-253: scan scores left to right, keeping the
strictly best so far.  `none` models the initial `bestScore = +Infinity` /
`bestIndex = -1` pair (every real score beats `+Infinity`); `i` is the index
of the head of the remaining list. -/
def pickLoop {α : Type} [LinearOrder α] :
    List α → ℕ → Option (ℕ × α) → Option (ℕ × α)
  | [], _, best => best
  | a :: rest, i, best =>
    match best with
    | none => pickLoop rest (i + 1) (some (i, a))
    | some (bi, bv) =>
      if a < bv then pickLoop rest (i + 1) (some (i, a))
      else pickLoop rest (i + 1) (some (bi, bv))

/-- Embedding of `pickNearestFrameForCurrentView`'s returned index (lines
229-267): `-1` for an empty dataset, otherwise the index of the winning
candidate.  The live pose is given by `livePos`, `liveFwd` (the source
derives the forward vector from the camera's Euler angles) and `liveFov`. -/
noncomputable def pickNearestFrameForCurrentView (bboxHalfExtents : Vec3R)
    (livePos liveFwd : Vec3R) (liveFov : ℝ)
    (prepared : List PreparedFrameR) : ℤ :=
  if prepared.length = 0 then -1
  else
    match pickLoop
        (prepared.map (frameScore (sceneScale bboxHalfExtents) livePos liveFwd liveFov))
        0 none with
    | none => -1
    | some (i, _) => (i : ℤ)

/-- Embedding of `frameToCamera` followed by the prepared-entry construction
(lines 81-104, 200-212).  Position is the translation column, forward the
negated third column, normalized; both are rotated when a scene
re-orientation is configured.  `rot` stands for the optional `Mat4` built
from the geo-transform Euler angles (the `Mat4` class is not part of the
sources, so the rotation is an arbitrary function parameter; a rotation acts
identically on points and directions).  The entry caches the pose's position,
forward and fov; the round trip through `Camera.look` and
`cameraForwardFromAngles` is modelled from the spec (the pose stores the
orientation set by look-at and `forward()` derives it back). -/
noncomputable def frameToCameraR (rot : Option (Vec3R → Vec3R)) (fov : ℝ)
    (f : SortedFrame) : Option PreparedFrameR :=
  if frameMatrixValid f.frame.transform_matrix then
    match f.frame.transform_matrix with
    | none => none
    | some m =>
      let row0 := m.getD 0 []
      let row1 := m.getD 1 []
      let row2 := m.getD 2 []
      let pos : Vec3R :=
        ⟨(row0.getD 3 0 : ℚ), (row1.getD 3 0 : ℚ), (row2.getD 3 0 : ℚ)⟩
      let fwd : Vec3R :=
        Vec3R.normalize ⟨-(row0.getD 2 0 : ℚ), -(row1.getD 2 0 : ℚ), -(row2.getD 2 0 : ℚ)⟩
      match rot with
      | none => some ⟨pos, fwd, fov⟩
      | some r => some ⟨r pos, Vec3R.normalize (r fwd), fov⟩
  else none

/-- Prepared dataset with resolved real-valued poses (lines 199-212). -/
noncomputable def preparedTransformFramesR (rot : Option (Vec3R → Vec3R))
    (fov : ℝ) (fs : List TransformFrame) : List PreparedFrameR :=
  (validTransformFrames fs).filterMap (frameToCameraR rot fov)

/-! ## Dataset navigation (`camera-manager.ts` lines 213-300, 421-432)

The navigation state is the selected index `transformFrameIndex : ℤ`
(initially `-1`).  Selection events are modelled as the list of
`(index, count)` payloads fired by `emitSelectedTransformFrame`. -/

/-- Embedding of `emitSelectedTransformFrame` (lines 215-227): fire a
`transformFrame:selected` event only when the index is in range. -/
def emitSelectedTransformFrame (n : ℕ) (idx : ℤ) : List (ℤ × ℕ) :=
  if 0 ≤ idx ∧ idx < (n : ℤ) then [(idx, n)] else []

/-- Embedding of `gotoTransformFrameIndex` (lines 269-283): out-of-range
indices are rejected, otherwise the index is stored and a selection event
fired.  (The handler also retargets the orbit controller; controller state
is outside this model.)  Returns the new index and the fired events. -/
def gotoTransformFrameIndex (n : ℕ) (index cur : ℤ) : ℤ × List (ℤ × ℕ) :=
  if index < 0 ∨ (n : ℤ) ≤ index then (cur, [])
  else (index, emitSelectedTransformFrame n index)

/-- State effect of a `pickNearestFrameForCurrentView()` call with
`emitSelection = true` (lines 229-267): on success the index is stored and a
selection event fired; on failure nothing changes.  Returns the new index,
the function's return value and the fired events. -/
noncomputable def pickNearestRun (bboxHalfExtents livePos liveFwd : Vec3R)
    (liveFov : ℝ) (prepared : List PreparedFrameR) (cur : ℤ) :
    ℤ × ℤ × List (ℤ × ℕ) :=
  let r := pickNearestFrameForCurrentView bboxHalfExtents livePos liveFwd liveFov prepared
  if r < 0 then (cur, r, [])
  else (r, r, emitSelectedTransformFrame prepared.length r)

/-- Embedding of `stepTransformFrame` (lines 285-300): empty datasets are
no-ops; with no current selection, the nearest frame is picked first (and its
selection event fired); then the index steps cyclically and
`gotoTransformFrameIndex` stores it.  JavaScript `%` agrees with `Int.emod`
here because the dividend is nonnegative whenever the guard passes. -/
noncomputable def stepTransformFrame (bboxHalfExtents livePos liveFwd : Vec3R)
    (liveFov : ℝ) (prepared : List PreparedFrameR) (cur step : ℤ) :
    ℤ × List (ℤ × ℕ) :=
  let n := prepared.length
  if n = 0 then (cur, [])
  else
    let pickStage :=
      if cur < 0 then pickNearestRun bboxHalfExtents livePos liveFwd liveFov prepared cur
      else (cur, cur, [])
    if pickStage.2.1 < 0 then (pickStage.1, pickStage.2.2)
    else
      let idx2 := (pickStage.1 + step + (n : ℤ)) % (n : ℤ)
      let g := gotoTransformFrameIndex n idx2 idx2
      (g.1, pickStage.2.2 ++ g.2)

/-- Embedding of the `gotoNearestTransformFrame` input event (lines 421-427):
pick the nearest frame without emitting, then go to it when one exists. -/
noncomputable def gotoNearestRun (bboxHalfExtents livePos liveFwd : Vec3R)
    (liveFov : ℝ) (prepared : List PreparedFrameR) (cur : ℤ) :
    ℤ × List (ℤ × ℕ) :=
  let r := pickNearestFrameForCurrentView bboxHalfExtents livePos liveFwd liveFov prepared
  if r < 0 then (cur, [])
  else gotoTransformFrameIndex prepared.length r r

/-- Embedding of the `gotoCurrentTransformFrame` input event (lines 428-432). -/
def gotoCurrentRun (n : ℕ) (cur : ℤ) : ℤ × List (ℤ × ℕ) :=
  if 0 ≤ cur then gotoTransformFrameIndex n cur cur else (cur, [])

/-- Selected-index invariant of the navigation state: `-1` (no selection) or
a valid position in the prepared dataset. -/
def validIdx (n : ℕ) (i : ℤ) : Prop :=
  i = -1 ∨ (0 ≤ i ∧ i < (n : ℤ))

/-! ## Startup mode selection (`camera-manager.ts` lines 144-168, 302-307) -/

/-- Rational model of a PlayCanvas `BoundingBox` (center + half extents). -/
structure BBoxQ where
  center : Vec3Q
  halfExtents : Vec3Q
deriving DecidableEq

/-- PlayCanvas `BoundingBox.containsPoint`: componentwise containment with
inclusive bounds (the library compares against `min`/`max` corners). -/
def BBoxQ.containsPoint (b : BBoxQ) (p : Vec3Q) : Bool :=
  decide (b.center.x - b.halfExtents.x ≤ p.x ∧ p.x ≤ b.center.x + b.halfExtents.x ∧
    b.center.y - b.halfExtents.y ≤ p.y ∧ p.y ≤ b.center.y + b.halfExtents.y ∧
    b.center.z - b.halfExtents.z ≤ p.z ∧ p.z ≤ b.center.z + b.halfExtents.z)

/-- Embedding of `getAnimTrack`'s success (lines 151-164): an authored track
is used when one exists and `startMode === 'animTrack'`; otherwise an object
experience synthesizes a rotate track (`createRotateTrack` always yields a
track); otherwise there is none.  Only the presence of the track matters for
the mode logic. -/
def animTrackResolved (animTracksNonempty startModeIsAnimTrack
    isObjectExperience : Bool) : Bool :=
  if animTracksNonempty && startModeIsAnimTrack then true
  else if isObjectExperience then true
  else false

/-- Mode initialization of line 307:
`state.hasAnimation ? 'anim' : (isObjectExperience ? 'orbit' : 'fly')`. -/
def initialCameraMode (hasAnimation isObjectExperience : Bool) : CameraMode :=
  if hasAnimation then CameraMode.anim
  else if isObjectExperience then CameraMode.orbit
  else CameraMode.fly

/-- Startup pipeline of the constructor (lines 166-168, 302-307): the object
experience flag comes from the reset camera position lying outside the
bounding box, the anim controller exists exactly when a track resolved, and
`state.hasAnimation` mirrors that controller (line 303).  `resetPos` is the
starting pose's position (`settings.cameras[0].initial.position`; look-at
does not move it). -/
def constructorInitialMode (animTracksNonempty startModeIsAnimTrack : Bool)
    (bbox : BBoxQ) (resetPos : Vec3Q) : CameraMode :=
  let isObjectExperience := !(bbox.containsPoint resetPos)
  let hasAnimation := animTrackResolved animTracksNonempty startModeIsAnimTrack isObjectExperience
  initialCameraMode hasAnimation isObjectExperience

/-- Claim-level ordering of the prepared dataset: ascending sort key with
infinite (`none`) keys last, ties among equal finite keys broken by file
path.  Keyless pairs are unconstrained here; their relative order is pinned
down separately (they keep dataset order). -/
def claimFrameOrder (a b : SortedFrame) : Prop :=
  match a.sort_key, b.sort_key with
  | some ka, some kb => ka < kb ∨ (ka = kb ∧ pathOf a ≤ pathOf b)
  | some _, none => True
  | none, some _ => False
  | none, none => True


/-- Transitivity of the effective comparator order (needed for the sorting
lemmas). -/
instance : IsTrans SortedFrame frameLe where
  trans := by
    intro a b c hab hbc
    unfold frameLe frameLeB at hab hbc ⊢
    rcases ha : a.sort_key with _ | ka <;> rcases hb : b.sort_key with _ | kb <;>
      rcases hc : c.sort_key with _ | kc <;> simp_all
    by_cases h1 : ka = kb <;> by_cases h2 : kb = kc <;> by_cases h3 : ka = kc <;>
      simp_all <;> try omega
    exact le_trans hab hbc

/-- Totality of the effective comparator order. -/
instance : IsTotal SortedFrame frameLe where
  total := by
    intro a b
    unfold frameLe frameLeB
    rcases ha : a.sort_key with _ | ka <;> rcases hb : b.sort_key with _ | kb <;> simp_all
    by_cases h1 : ka = kb
    · subst h1
      simp_all
      exact le_total _ _
    · have h2 : kb ≠ ka := fun h => h1 h.symm
      simp_all
      omega

/-! ## Theorems -/

section PickLoopSpec

variable {α : Type} [LinearOrder α]

/-- Characterization of the selection loop when started with a concrete
running best `(bi, bv)` at absolute position `i`: either the running best
survives and bounds every remaining score, or the result is the first
strictly-better minimum among the remaining scores. -/
theorem pickLoop_some_spec (l : List α) :
    ∀ (i bi : ℕ) (bv : α), ∃ ri rv,
      pickLoop l i (some (bi, bv)) = some (ri, rv) ∧
      ((ri = bi ∧ rv = bv ∧ ∀ x ∈ l, bv ≤ x) ∨
        (∃ j, ∃ hj : j < l.length, ri = i + j ∧ rv = l[j] ∧ rv < bv ∧
          (∀ m, ∀ hm : m < l.length, m < j → rv < l[m]) ∧
          (∀ m, ∀ hm : m < l.length, rv ≤ l[m]))) := by
  induction l with
  | nil =>
    intro i bi bv
    exact ⟨bi, bv, rfl, Or.inl ⟨rfl, rfl, by simp⟩⟩
  | cons a rest ih =>
    intro i bi bv
    by_cases h : a < bv
    · obtain ⟨ri, rv, heq, hcase⟩ := ih (i + 1) i a
      refine ⟨ri, rv, by simpa [pickLoop, h] using heq, Or.inr ?_⟩
      rcases hcase with ⟨hri, hrv, hall⟩ | ⟨j, hj, hri, hrv, hlt, hfirst, hmin⟩
      · refine ⟨0, by simp, by omega, by simp [hrv], by simpa [hrv] using h, ?_, ?_⟩
        · intro m hm hm0; omega
        · intro m hm
          cases m with
          | zero => simp [hrv]
          | succ k =>
            have hk : k < rest.length := by simpa using hm
            simpa [hrv] using hall _ (List.getElem_mem hk)
      · refine ⟨j + 1, by simpa using hj, by omega, by simpa using hrv,
          lt_trans hlt h, ?_, ?_⟩
        · intro m hm hmj
          cases m with
          | zero => simpa using hlt
          | succ k =>
            have hk : k < rest.length := by simpa using hm
            simpa using hfirst k hk (by omega)
        · intro m hm
          cases m with
          | zero => simpa using le_of_lt hlt
          | succ k =>
            have hk : k < rest.length := by simpa using hm
            simpa using hmin k hk
    · obtain ⟨ri, rv, heq, hcase⟩ := ih (i + 1) bi bv
      refine ⟨ri, rv, by simpa [pickLoop, h] using heq, ?_⟩
      rcases hcase with ⟨hri, hrv, hall⟩ | ⟨j, hj, hri, hrv, hlt, hfirst, hmin⟩
      · refine Or.inl ⟨hri, hrv, ?_⟩
        intro x hx
        rcases List.mem_cons.mp hx with rfl | hx
        · exact le_of_not_lt h
        · exact hall x hx
      · refine Or.inr ⟨j + 1, by simpa using hj, by omega, by simpa using hrv, hlt, ?_, ?_⟩
        · intro m hm hmj
          cases m with
          | zero => simpa using lt_of_lt_of_le hlt (le_of_not_lt h)
          | succ k =>
            have hk : k < rest.length := by simpa using hm
            simpa using hfirst k hk (by omega)
        · intro m hm
          cases m with
          | zero => simpa using le_of_lt (lt_of_lt_of_le hlt (le_of_not_lt h))
          | succ k =>
            have hk : k < rest.length := by simpa using hm
            simpa using hmin k hk

/-- First-minimum characterization of the loop started from the initial
`bestScore = +Infinity` state on a nonempty list. -/
theorem pickLoop_firstMin (l : List α) (hne : l ≠ []) :
    ∃ k, ∃ hk : k < l.length, pickLoop l 0 none = some (k, l[k]) ∧
      (∀ m, ∀ hm : m < l.length, l[k] ≤ l[m]) ∧
      (∀ m, ∀ hm : m < l.length, m < k → l[k] < l[m]) := by
  match l, hne with
  | a :: rest, _ =>
    have h0 : pickLoop (a :: rest) 0 none = pickLoop rest 1 (some (0, a)) := rfl
    obtain ⟨ri, rv, heq, hcase⟩ := pickLoop_some_spec rest 1 0 a
    rcases hcase with ⟨hri, hrv, hall⟩ | ⟨j, hj, hri, hrv, hlt, hfirst, hmin⟩
    · refine ⟨0, by simp, ?_, ?_, ?_⟩
      · rw [h0, heq, hri, hrv]; simp
      · intro m hm
        cases m with
        | zero => simp
        | succ k =>
          have hk : k < rest.length := by simpa using hm
          simpa using hall _ (List.getElem_mem hk)
      · intro m hm hm0; omega
    · refine ⟨j + 1, by simpa using hj, ?_, ?_, ?_⟩
      · rw [h0, heq, hri, hrv]
        simp [Nat.add_comm]
      · intro m hm
        cases m with
        | zero => simpa [← hrv] using le_of_lt hlt
        | succ k =>
          have hk : k < rest.length := by simpa using hm
          simpa [← hrv] using hmin k hk
      · intro m hm hmj
        cases m with
        | zero => simpa [← hrv] using hlt
        | succ k =>
          have hk : k < rest.length := by simpa using hm
          simpa [← hrv] using hfirst k hk (by omega)

end PickLoopSpec

/-- Full characterization of the matcher's returned index on a nonempty
prepared dataset: it is the first index achieving the minimal score. -/
theorem pickNearest_spec (bh lp lf : Vec3R) (fov : ℝ)
    (prepared : List PreparedFrameR) (hne : prepared ≠ []) :
    ∃ k, ∃ hk : k < prepared.length,
      pickNearestFrameForCurrentView bh lp lf fov prepared = (k : ℤ) ∧
      (∀ m, ∀ hm : m < prepared.length,
        frameScore (sceneScale bh) lp lf fov prepared[k] ≤
          frameScore (sceneScale bh) lp lf fov prepared[m]) ∧
      (∀ m, ∀ hm : m < prepared.length, m < k →
        frameScore (sceneScale bh) lp lf fov prepared[k] <
          frameScore (sceneScale bh) lp lf fov prepared[m]) := by
  set f := frameScore (sceneScale bh) lp lf fov with hf
  obtain ⟨k, hk, heq, hmin, hfirst⟩ :=
    pickLoop_firstMin (prepared.map f) (by simpa using hne)
  have hk' : k < prepared.length := by simpa using hk
  refine ⟨k, hk', ?_, ?_, ?_⟩
  · unfold pickNearestFrameForCurrentView
    rw [if_neg (by simpa [List.length_eq_zero] using hne), ← hf, heq]
  · intro m hm
    have := hmin m (by simpa using hm)
    simpa using this
  · intro m hm hmk
    have := hfirst m (by simpa using hm) hmk
    simpa using this

/-- Range of the matcher's returned index: `-1` or a valid position. -/
theorem pickNearest_cases (bh lp lf : Vec3R) (fov : ℝ)
    (prepared : List PreparedFrameR) :
    pickNearestFrameForCurrentView bh lp lf fov prepared = -1 ∨
      (0 ≤ pickNearestFrameForCurrentView bh lp lf fov prepared ∧
        pickNearestFrameForCurrentView bh lp lf fov prepared < (prepared.length : ℤ)) := by
  by_cases hne : prepared = []
  · subst hne; left; rfl
  · obtain ⟨k, hk, heq, -, -⟩ := pickNearest_spec bh lp lf fov prepared hne
    right
    rw [heq]
    constructor
    · exact_mod_cast Nat.zero_le k
    · exact_mod_cast hk

/-- C1.  For every non-empty prepared dataset and live camera pose, the
nearest-frame matcher returns the index of the candidate minimizing
`score = 0.4*posTerm + 0.5*dirTerm + 0.1*fovTerm + behindPenalty` with
`scale = max(1e-3, 2*scene_bounding_radius)`,
`posTerm = distance(livePos, candidatePos)/scale`,
`dirTerm = acos(clamp(dot(liveForward, candidateForward), -1, 1))/pi`,
`fovTerm = min(1, |liveFOV - candidateFOV|/90)` and
`behindPenalty = 0.5` exactly when the forward dot product is negative
(`frameScore` is literally that formula); on equal minimal scores the
earliest dataset index wins. -/
theorem nearest_frame_matcher_returns_first_minimal_score (bh lp lf : Vec3R)
    (fov : ℝ) (prepared : List PreparedFrameR) (hne : prepared ≠ []) :
    ∃ k, ∃ hk : k < prepared.length,
      pickNearestFrameForCurrentView bh lp lf fov prepared = (k : ℤ) ∧
      (∀ m, ∀ hm : m < prepared.length,
        frameScore (sceneScale bh) lp lf fov prepared[k] ≤
          frameScore (sceneScale bh) lp lf fov prepared[m]) ∧
      (∀ m, ∀ hm : m < prepared.length, m < k →
        frameScore (sceneScale bh) lp lf fov prepared[k] <
          frameScore (sceneScale bh) lp lf fov prepared[m]) :=
  pickNearest_spec bh lp lf fov prepared hne

/-- Witness for C1 at a concrete one-candidate dataset. -/
theorem nearest_frame_matcher_returns_first_minimal_score_witness :
    ([(⟨⟨0, 0, 0⟩, ⟨0, 0, 1⟩, 60⟩ : PreparedFrameR)] ≠ []) ∧
      (∃ k, ∃ hk : k < [(⟨⟨0, 0, 0⟩, ⟨0, 0, 1⟩, 60⟩ : PreparedFrameR)].length,
        pickNearestFrameForCurrentView ⟨1, 1, 1⟩ ⟨0, 0, 0⟩ ⟨0, 0, 1⟩ 60
          [(⟨⟨0, 0, 0⟩, ⟨0, 0, 1⟩, 60⟩ : PreparedFrameR)] = (k : ℤ) ∧
        (∀ m, ∀ hm : m < [(⟨⟨0, 0, 0⟩, ⟨0, 0, 1⟩, 60⟩ : PreparedFrameR)].length,
          frameScore (sceneScale ⟨1, 1, 1⟩) ⟨0, 0, 0⟩ ⟨0, 0, 1⟩ 60
              [(⟨⟨0, 0, 0⟩, ⟨0, 0, 1⟩, 60⟩ : PreparedFrameR)][k] ≤
            frameScore (sceneScale ⟨1, 1, 1⟩) ⟨0, 0, 0⟩ ⟨0, 0, 1⟩ 60
              [(⟨⟨0, 0, 0⟩, ⟨0, 0, 1⟩, 60⟩ : PreparedFrameR)][m]) ∧
        (∀ m, ∀ hm : m < [(⟨⟨0, 0, 0⟩, ⟨0, 0, 1⟩, 60⟩ : PreparedFrameR)].length, m < k →
          frameScore (sceneScale ⟨1, 1, 1⟩) ⟨0, 0, 0⟩ ⟨0, 0, 1⟩ 60
              [(⟨⟨0, 0, 0⟩, ⟨0, 0, 1⟩, 60⟩ : PreparedFrameR)][k] <
            frameScore (sceneScale ⟨1, 1, 1⟩) ⟨0, 0, 0⟩ ⟨0, 0, 1⟩ 60
              [(⟨⟨0, 0, 0⟩, ⟨0, 0, 1⟩, 60⟩ : PreparedFrameR)][m])) :=
  ⟨List.cons_ne_nil _ _,
    nearest_frame_matcher_returns_first_minimal_score ⟨1, 1, 1⟩ ⟨0, 0, 0⟩ ⟨0, 0, 1⟩ 60
      [(⟨⟨0, 0, 0⟩, ⟨0, 0, 1⟩, 60⟩ : PreparedFrameR)] (List.cons_ne_nil _ _)⟩

/-- C3.  In every per-frame update whose transition timer has reached 1, the
displayed pose is copied from the controller's target (not interpolated),
and re-applying the blend (a further update with zero delta and an identity
controller) leaves the displayed pose unchanged. -/
theorem completed_transition_copies_target_exactly
    (lerpFn : CameraQ → CameraQ → ℚ → CameraQ) (easeFn : ℚ → ℚ)
    (ctrlUpdate : ℚ → CameraQ → CameraQ) (s : BlendState) (deltaTime dt : ℚ)
    (h : 1 ≤ (updateTransitionBlend lerpFn easeFn ctrlUpdate s deltaTime dt).transitionTimer) :
    (updateTransitionBlend lerpFn easeFn ctrlUpdate s deltaTime dt).camera =
      (updateTransitionBlend lerpFn easeFn ctrlUpdate s deltaTime dt).target ∧
    (updateTransitionBlend lerpFn easeFn ctrlUpdate s deltaTime dt).target =
      ctrlUpdate dt s.target ∧
    (updateTransitionBlend lerpFn easeFn (fun _ t => t)
        (updateTransitionBlend lerpFn easeFn ctrlUpdate s deltaTime dt) 0 0).camera =
      (updateTransitionBlend lerpFn easeFn ctrlUpdate s deltaTime dt).camera := by
  have ht1 : min 1 (s.transitionTimer + deltaTime * transitionSpeed) = 1 :=
    le_antisymm (min_le_left _ _) h
  have hcam : (updateTransitionBlend lerpFn easeFn ctrlUpdate s deltaTime dt).camera =
      (updateTransitionBlend lerpFn easeFn ctrlUpdate s deltaTime dt).target := by
    simp [updateTransitionBlend, ht1]
  refine ⟨hcam, rfl, ?_⟩
  have ht2 : (updateTransitionBlend lerpFn easeFn ctrlUpdate s deltaTime dt).transitionTimer
      = 1 := ht1
  simp [updateTransitionBlend, ht2, hcam]

/-- Witness for C3 at a concrete mid-flight state finishing its transition. -/
theorem completed_transition_copies_target_exactly_witness :
    (1 ≤ (updateTransitionBlend (fun a _ _ => a) (fun t => t) (fun _ t => t)
        ⟨⟨⟨0, 0, 0⟩, ⟨0, 0, 0⟩, 60⟩, ⟨⟨1, 0, 0⟩, ⟨0, 0, 0⟩, 60⟩,
          ⟨⟨2, 0, 0⟩, ⟨0, 0, 0⟩, 60⟩, 1/2⟩ 1 1).transitionTimer) ∧
    ((updateTransitionBlend (fun a _ _ => a) (fun t => t) (fun _ t => t)
        ⟨⟨⟨0, 0, 0⟩, ⟨0, 0, 0⟩, 60⟩, ⟨⟨1, 0, 0⟩, ⟨0, 0, 0⟩, 60⟩,
          ⟨⟨2, 0, 0⟩, ⟨0, 0, 0⟩, 60⟩, 1/2⟩ 1 1).camera =
      (updateTransitionBlend (fun a _ _ => a) (fun t => t) (fun _ t => t)
        ⟨⟨⟨0, 0, 0⟩, ⟨0, 0, 0⟩, 60⟩, ⟨⟨1, 0, 0⟩, ⟨0, 0, 0⟩, 60⟩,
          ⟨⟨2, 0, 0⟩, ⟨0, 0, 0⟩, 60⟩, 1/2⟩ 1 1).target) :=
  ⟨by norm_num [updateTransitionBlend, transitionSpeed],
    (completed_transition_copies_target_exactly (fun a _ _ => a) (fun t => t) (fun _ t => t)
      ⟨⟨⟨0, 0, 0⟩, ⟨0, 0, 0⟩, 60⟩, ⟨⟨1, 0, 0⟩, ⟨0, 0, 0⟩, 60⟩,
        ⟨⟨2, 0, 0⟩, ⟨0, 0, 0⟩, 60⟩, 1/2⟩ 1 1
      (by norm_num [updateTransitionBlend, transitionSpeed])).1⟩

/-- C8.  A transition request issued while a previous transition is still in
flight snapshots `from` from the currently displayed (partially blended)
pose — not from the previous transition's `from` — and resets the timer. -/
theorem new_transition_snapshots_displayed_pose (s : BlendState)
    (h : s.transitionTimer < 1) :
    (startTransition s).fromPose = s.camera ∧
    (startTransition s).transitionTimer = 0 ∧
    (startTransition s).target = s.target ∧
    (s.fromPose ≠ s.camera → (startTransition s).fromPose ≠ s.fromPose) := by
  refine ⟨rfl, rfl, rfl, fun hne => ?_⟩
  simpa [startTransition] using Ne.symm hne

/-- Witness for C8 at a concrete mid-flight state. -/
theorem new_transition_snapshots_displayed_pose_witness :
    ((⟨⟨⟨0, 0, 0⟩, ⟨0, 0, 0⟩, 60⟩, ⟨⟨1, 0, 0⟩, ⟨0, 0, 0⟩, 60⟩,
        ⟨⟨2, 0, 0⟩, ⟨0, 0, 0⟩, 60⟩, 1/2⟩ : BlendState).transitionTimer < 1) ∧
    (startTransition ⟨⟨⟨0, 0, 0⟩, ⟨0, 0, 0⟩, 60⟩, ⟨⟨1, 0, 0⟩, ⟨0, 0, 0⟩, 60⟩,
        ⟨⟨2, 0, 0⟩, ⟨0, 0, 0⟩, 60⟩, 1/2⟩).fromPose =
      (⟨⟨⟨0, 0, 0⟩, ⟨0, 0, 0⟩, 60⟩, ⟨⟨1, 0, 0⟩, ⟨0, 0, 0⟩, 60⟩,
        ⟨⟨2, 0, 0⟩, ⟨0, 0, 0⟩, 60⟩, 1/2⟩ : BlendState).camera :=
  ⟨by norm_num,
    (new_transition_snapshots_displayed_pose
      ⟨⟨⟨0, 0, 0⟩, ⟨0, 0, 0⟩, 60⟩, ⟨⟨1, 0, 0⟩, ⟨0, 0, 0⟩, 60⟩,
        ⟨⟨2, 0, 0⟩, ⟨0, 0, 0⟩, 60⟩, 1/2⟩ (by norm_num)).1⟩

/-- Trace of a concatenated input sequence splits at the intermediate state. -/
theorem settleTrace_append (xs ys : List (Bool × ℚ)) :
    ∀ s : SettleState, settleTrace s (xs ++ ys) =
      settleTrace s xs ++ settleTrace (settleRunState s xs) ys := by
  induction xs with
  | nil => intro s; simp [settleTrace, settleRunState]
  | cons p rest ih =>
    intro s
    obtain ⟨b, d⟩ := p
    simp [settleTrace, settleRunState, ih]

/-- Once the detector is idle (`wasMoving = false`), still frames never fire. -/
theorem settleTrace_stills_idle (ys : List ℚ) :
    ∀ t : ℚ, settleTrace ⟨false, t⟩ (ys.map fun d => (false, d)) =
      List.replicate ys.length false := by
  induction ys with
  | nil => intro t; simp [settleTrace]
  | cons y rest ih =>
    intro t
    simp [settleTrace, settleStep, ih, List.replicate_succ]

/-- Still-phase run from a just-moved state: the matcher fires exactly at the
first frame where the accumulated still time reaches the settle delay. -/
theorem settleTrace_stills_spec (ys : List ℚ) :
    ∀ (t0 : ℚ) (j : ℕ), j < ys.length →
      settleDelaySeconds ≤ t0 + (ys.take (j + 1)).sum →
      (∀ m, m < j → t0 + (ys.take (m + 1)).sum < settleDelaySeconds) →
      settleTrace ⟨true, t0⟩ (ys.map fun d => (false, d)) =
        List.replicate j false ++ true :: List.replicate (ys.length - (j + 1)) false := by
  induction ys with
  | nil =>
    intro t0 j hj _ _
    exact absurd hj (by simp)
  | cons y rest ih =>
    intro t0 j hj hsum hmin
    by_cases hfire : settleDelaySeconds ≤ t0 + y
    · have hj0 : j = 0 := by
        by_contra hne
        have h0 := hmin 0 (by omega)
        simp [List.take] at h0
        linarith
      subst hj0
      simp [settleTrace, settleStep, hfire, settleTrace_stills_idle]
    · have hj' : j ≠ 0 := by
        intro h0
        subst h0
        simp [List.take] at hsum
        exact hfire (by linarith)
      obtain ⟨j', rfl⟩ : ∃ j', j = j' + 1 := ⟨j - 1, by omega⟩
      have hrec := ih (t0 + y) j' (by simpa using hj)
        (by simpa [List.take, add_assoc] using hsum)
        (by
          intro m hm
          have := hmin (m + 1) (by omega)
          simpa [List.take, add_assoc] using this)
      simp only [List.map_cons, settleTrace, settleStep]
      simp [hfire, hrec, List.replicate_succ]

/-- C4.  After a frame that exceeds a movement threshold followed only by
still frames, the automatic matcher is invoked exactly once — at the first
update where the accumulated still time reaches the 0.2 s settle delay — and
an update whose frame is moving never invokes it. -/
theorem settle_debounce_fires_matcher_once (s0 : SettleState)
    (pre : List (Bool × ℚ)) (d : ℚ) (ys : List ℚ) (j : ℕ) (hj : j < ys.length)
    (hsum : settleDelaySeconds ≤ (ys.take (j + 1)).sum)
    (hmin : ∀ m, m < j → (ys.take (m + 1)).sum < settleDelaySeconds) :
    settleTrace s0 (pre ++ (true, d) :: ys.map (fun t => (false, t))) =
      settleTrace s0 pre ++ false ::
        (List.replicate j false ++ true :: List.replicate (ys.length - (j + 1)) false) ∧
    (∀ s : SettleState, ∀ dt : ℚ, (settleStep s true dt).2 = false) := by
  constructor
  · rw [settleTrace_append]
    congr 1
    have hstep : settleStep (settleRunState s0 pre) true d =
        (⟨true, 0⟩, false) := rfl
    simp only [settleTrace, hstep]
    rw [settleTrace_stills_spec ys 0 j hj (by simpa using hsum)
      (by intro m hm; simpa using hmin m hm)]
  · intro s dt
    rfl

/-- Witness for C4: one moving frame, then still frames of 0.1 s; the matcher
fires at the second still frame, where the still time reaches 0.2 s. -/
theorem settle_debounce_fires_matcher_once_witness :
    (1 < ([(1 : ℚ)/10, 1/10]).length) ∧
    (settleDelaySeconds ≤ (([(1 : ℚ)/10, 1/10]).take 2).sum) ∧
    (settleTrace ⟨false, 0⟩ ([] ++ (true, 1) :: ([(1 : ℚ)/10, 1/10]).map (fun t => (false, t))) =
      settleTrace ⟨false, 0⟩ [] ++ false ::
        (List.replicate 1 false ++ true ::
          List.replicate (([(1 : ℚ)/10, 1/10]).length - 2) false) ∧
      (∀ s : SettleState, ∀ dt : ℚ, (settleStep s true dt).2 = false)) :=
  ⟨by decide, by norm_num [settleDelaySeconds],
    settle_debounce_fires_matcher_once ⟨false, 0⟩ [] 1 [(1 : ℚ)/10, 1/10] 1
      (by decide) (by norm_num [settleDelaySeconds])
      (by intro m hm; have hm0 : m = 0 := by omega
          subst hm0; norm_num [settleDelaySeconds])⟩

/-- C5 counterexample: with no animation track, a `scrubAnim` request — a
mode-switch request targeting `anim` — is not ignored: it raises a null
access and leaves the camera mode changed to `anim`. -/
theorem anim_request_not_ignored_counterexample :
    (handleScrubAnim none ⟨CameraMode.fly, false, 0⟩ 1).1 = some JsError.nullAccess ∧
    (handleScrubAnim none ⟨CameraMode.fly, false, 0⟩ 1).2.cameraMode = CameraMode.anim ∧
    (⟨CameraMode.fly, false, 0⟩ : MgrState).cameraMode ≠ CameraMode.anim := by
  exact ⟨rfl, rfl, by decide⟩

/-- C5 (amended).  When no animation track was resolved, only the play/pause
toggle is guarded: it is ignored and leaves the state (including the mode)
unchanged.  A scrub request instead sets the camera mode to `anim` and
faults on the missing animation controller, and a mode-change event
targeting `anim` likewise faults when entering the missing controller. -/
theorem anim_unreachable_guard_only_on_playPause (s : MgrState)
    (bs : BlendState) (t : ℚ) (prev : CameraMode) :
    handlePlayPause false s = s ∧
    (handleScrubAnim none s t).1 = some JsError.nullAccess ∧
    (handleScrubAnim none s t).2.cameraMode = CameraMode.anim ∧
    (handleCameraModeChanged none CameraMode.anim prev bs).1 = some JsError.nullAccess := by
  refine ⟨rfl, rfl, rfl, ?_⟩
  by_cases h : prev = CameraMode.anim <;> simp [handleCameraModeChanged, h]

/-- C7.  The initial camera mode is `anim` exactly when an animation track
resolved, else `orbit` exactly when the starting pose lies outside the
content's bounding volume, else `fly`. -/
theorem initial_camera_mode_selection (animTracksNonempty startModeIsAnimTrack : Bool)
    (bbox : BBoxQ) (resetPos : Vec3Q) :
    (constructorInitialMode animTracksNonempty startModeIsAnimTrack bbox resetPos =
        CameraMode.anim ↔
      animTrackResolved animTracksNonempty startModeIsAnimTrack
        (!(bbox.containsPoint resetPos)) = true) ∧
    (constructorInitialMode animTracksNonempty startModeIsAnimTrack bbox resetPos =
        CameraMode.orbit ↔
      (animTrackResolved animTracksNonempty startModeIsAnimTrack
          (!(bbox.containsPoint resetPos)) = false ∧
        bbox.containsPoint resetPos = false)) ∧
    (constructorInitialMode animTracksNonempty startModeIsAnimTrack bbox resetPos =
        CameraMode.fly ↔
      (animTrackResolved animTracksNonempty startModeIsAnimTrack
          (!(bbox.containsPoint resetPos)) = false ∧
        bbox.containsPoint resetPos = true)) := by
  cases h2 : bbox.containsPoint resetPos <;>
    cases h1 : animTrackResolved animTracksNonempty startModeIsAnimTrack
      (!(bbox.containsPoint resetPos)) <;>
    simp_all [constructorInitialMode, initialCameraMode]


/-- Output of the dataset sort is ordered by the claim-level relation:
ascending finite keys first (path-tiebreak on equal keys), keyless frames
last. -/
theorem validTransformFrames_sorted (fs : List TransformFrame) :
    (validTransformFrames fs).Pairwise claimFrameOrder := by
  have hs := List.sorted_insertionSort frameLe ((rawValidFrames fs).map decorateFrame)
  refine hs.imp ?_
  intro a b hab
  unfold frameLe frameLeB at hab
  unfold claimFrameOrder
  rcases ha : a.sort_key with _ | ka <;> rcases hb : b.sort_key with _ | kb <;> simp_all
  by_cases h1 : ka = kb <;> simp_all
  omega

/-- The dataset sort permutes the decorated filtered input. -/
theorem validTransformFrames_perm (fs : List TransformFrame) :
    List.Perm (validTransformFrames fs) ((rawValidFrames fs).map decorateFrame) :=
  List.perm_insertionSort frameLe ((rawValidFrames fs).map decorateFrame)

/-- Stability on the keyless frames: the comparator computes
`Infinity - Infinity = NaN`, coerced to `+0`, so keyless frames compare equal
and the stable sort keeps them in dataset order. -/
theorem validTransformFrames_stable_keyless (fs : List TransformFrame) :
    (validTransformFrames fs).filter (fun f => f.sort_key.isNone) =
      ((rawValidFrames fs).map decorateFrame).filter (fun f => f.sort_key.isNone) := by
  set l := (rawValidFrames fs).map decorateFrame with hl
  set c := l.filter (fun f => f.sort_key.isNone) with hc
  have hpw : c.Pairwise frameLe := by
    refine List.pairwise_of_forall_mem_list ?_
    intro a ha b hb
    have ha' := (List.mem_filter.mp ha).2
    have hb' := (List.mem_filter.mp hb).2
    unfold frameLe frameLeB
    rcases hA : a.sort_key with _ | ka
    · rcases hB : b.sort_key with _ | kb
      · rfl
      · rw [hB] at hb'; simp at hb'
    · rw [hA] at ha'; simp at ha'
  have hsub : List.Sublist c (validTransformFrames fs) :=
    List.sublist_insertionSort hpw (List.filter_sublist l)
  have hsub2 : List.Sublist (c.filter (fun f => f.sort_key.isNone))
      ((validTransformFrames fs).filter (fun f => f.sort_key.isNone)) :=
    hsub.filter _
  have hcc : c.filter (fun f => f.sort_key.isNone) = c := by
    apply List.filter_eq_self.mpr
    intro a ha
    rw [hc] at ha
    exact (List.mem_filter.mp ha).2
  have hlen : ((validTransformFrames fs).filter (fun f => f.sort_key.isNone)).length =
      c.length := by
    have := (validTransformFrames_perm fs).filter (fun f => f.sort_key.isNone)
    exact this.length_eq
  rw [hcc] at hsub2
  exact (hsub2.eq_of_length (by rw [hlen])).symm

/-- C2 counterexample: the code's sort key requires the literal token
`frame_<digits>`, so the name `img_2.png` — which carries a trailing
`_<digits>` token right before its extension, with value 2 as the claim's
rule derives — gets no finite key; and two keyless frames in dataset order
`b.png`, `a.png` stay in that order instead of being swapped into lexical
path order. -/
theorem dataset_sort_key_counterexample :
    extractFrameSortKey ⟨some ("img_2.png"), none, some []⟩ = none ∧
    specTrailingSortKey ("img_2.png") = some 2 ∧
    validTransformFrames
        [⟨some ("b.png"), none, some []⟩, ⟨some ("a.png"), none, some []⟩] =
      [⟨⟨some ("b.png"), none, some []⟩, none⟩,
        ⟨⟨some ("a.png"), none, some []⟩, none⟩] :=
  ⟨by decide, by decide, by decide⟩

/-- C2 (amended).  The sort key is the integer of a `frame_<digits>` token
(case-insensitive, immediately before the extension or the end of the name);
names without such a token — including names with other trailing
`_<digits>` tokens — get key `+infinity`.  The prepared dataset is ordered by
ascending sort key with infinite keys last from a stable sort: ties between
equal finite keys are broken by file path, while frames with infinite keys
keep their dataset order.  Frames named `frame_002.png`, `frame_010.png`,
`foo.png` come out in the order 002, 010, foo. -/
theorem dataset_sort_order_amended (fs : List TransformFrame) :
    (validTransformFrames fs).Pairwise claimFrameOrder ∧
    (preparedTransformFrames fs).Pairwise claimFrameOrder ∧
    List.Perm (validTransformFrames fs) ((rawValidFrames fs).map decorateFrame) ∧
    ((validTransformFrames fs).filter (fun f => f.sort_key.isNone) =
      ((rawValidFrames fs).map decorateFrame).filter (fun f => f.sort_key.isNone)) ∧
    extractFrameSortKey ⟨some ("shots/frame_010.png"), none, some []⟩ = some 10 ∧
    extractFrameSortKey ⟨some ("FRAME_7.JPG"), none, some []⟩ = some 7 ∧
    extractFrameSortKey ⟨some ("img_2.png"), none, some []⟩ = none ∧
    extractFrameSortKey ⟨some ("foo.png"), none, some []⟩ = none ∧
    preparedTransformFrames
        [⟨some ("foo.png"), none, some [[0,0,0,0],[0,0,0,0],[0,0,0,0]]⟩,
          ⟨some ("frame_010.png"), none, some [[0,0,0,0],[0,0,0,0],[0,0,0,0]]⟩,
          ⟨some ("frame_002.png"), none, some [[0,0,0,0],[0,0,0,0],[0,0,0,0]]⟩] =
      [⟨⟨some ("frame_002.png"), none, some [[0,0,0,0],[0,0,0,0],[0,0,0,0]]⟩, some 2⟩,
        ⟨⟨some ("frame_010.png"), none, some [[0,0,0,0],[0,0,0,0],[0,0,0,0]]⟩, some 10⟩,
        ⟨⟨some ("foo.png"), none, some [[0,0,0,0],[0,0,0,0],[0,0,0,0]]⟩, none⟩] :=
  ⟨validTransformFrames_sorted fs,
    List.Pairwise.sublist (List.filter_sublist _) (validTransformFrames_sorted fs),
    validTransformFrames_perm fs,
    validTransformFrames_stable_keyless fs,
    by decide, by decide, by decide, by decide, by decide⟩

/-- Payloads fired by `emitSelectedTransformFrame` always carry an in-range
index together with the dataset size. -/
theorem emitSelectedTransformFrame_spec (n : ℕ) (idx : ℤ) :
    ∀ p ∈ emitSelectedTransformFrame n idx,
      0 ≤ p.1 ∧ p.1 < (n : ℤ) ∧ p.2 = n := by
  intro p hp
  unfold emitSelectedTransformFrame at hp
  by_cases hin : 0 ≤ idx ∧ idx < (n : ℤ)
  · rw [if_pos hin] at hp
    rcases List.mem_singleton.mp hp with rfl
    exact ⟨hin.1, hin.2, rfl⟩
  · rw [if_neg hin] at hp
    exact absurd hp (List.not_mem_nil p)

/-- If the extraction function returns `none` wherever the predicate fails,
pre-filtering by the predicate does not change `filterMap`. -/
theorem filterMap_eq_filterMap_filter {α β : Type} (g : α → Option β)
    (p : α → Bool) (h : ∀ a, p a = false → g a = none) :
    ∀ l : List α, l.filterMap g = (l.filter p).filterMap g := by
  intro l
  induction l with
  | nil => rfl
  | cons a t ih =>
    by_cases hpa : p a = true
    · simp [List.filter_cons, hpa, List.filterMap_cons, ih]
    · have hnone := h a (by simpa using hpa)
      simp [List.filter_cons, hpa, List.filterMap_cons, hnone, ih]

/-- C6.  Every raw frame whose camera-to-world matrix fails the
3-rows-of-4-columns check is silently discarded and absent from the prepared
dataset, also in mixed datasets: every prepared entry is well-formed, no
prepared entry originates from a malformed raw frame, and discarding the
malformed frames leaves the resolved-pose pipeline unchanged.  In
particular, when every frame fails the check (for instance a dataset whose
only frames have 2-row matrices) the prepared dataset is empty, the matcher
returns -1, and the navigation requests (previous/next step, go-to-nearest,
go-to-current) are no-ops leaving the selection unchanged and firing no
events. -/
theorem malformed_matrices_leave_dataset_empty (fs : List TransformFrame)
    (rot : Option (Vec3R → Vec3R)) (fovR : ℝ) (bh lp lf : Vec3R) (liveFov : ℝ)
    (cur st : ℤ) :
    (∀ f' ∈ preparedTransformFrames fs,
      frameMatrixValid f'.frame.transform_matrix = true) ∧
    (∀ f ∈ fs, frameMatrixValid f.transform_matrix = false →
      ∀ f' ∈ preparedTransformFrames fs, f'.frame ≠ f) ∧
    preparedTransformFramesR rot fovR fs =
      (preparedTransformFrames fs).filterMap (frameToCameraR rot fovR) ∧
    ((∀ f ∈ fs, frameMatrixValid f.transform_matrix = false) →
      (preparedTransformFrames fs = [] ∧
      preparedTransformFramesR rot fovR fs = [] ∧
      pickNearestFrameForCurrentView bh lp lf liveFov (preparedTransformFramesR rot fovR fs) = -1 ∧
      stepTransformFrame bh lp lf liveFov (preparedTransformFramesR rot fovR fs) cur st = (cur, []) ∧
      gotoNearestRun bh lp lf liveFov (preparedTransformFramesR rot fovR fs) cur = (cur, []) ∧
      gotoCurrentRun (preparedTransformFramesR rot fovR fs).length cur = (cur, []))) := by
  have hmem : ∀ f' ∈ preparedTransformFrames fs,
      frameMatrixValid f'.frame.transform_matrix = true := by
    intro f' hf'
    unfold preparedTransformFrames at hf'
    exact (List.mem_filter.mp hf').2
  refine ⟨hmem, ?_, ?_, ?_⟩
  · intro f hf hmal f' hf' heq
    have hval := hmem f' hf'
    rw [heq, hmal] at hval
    exact Bool.false_ne_true hval
  · unfold preparedTransformFramesR preparedTransformFrames
    exact filterMap_eq_filterMap_filter (frameToCameraR rot fovR)
      (fun f => frameMatrixValid f.frame.transform_matrix)
      (fun a ha => by simp [frameToCameraR, ha]) (validTransformFrames fs)
  · intro h
    have hv : ∀ f' ∈ validTransformFrames fs,
        frameMatrixValid f'.frame.transform_matrix = false := by
      intro f' hf'
      rw [validTransformFrames, List.mem_insertionSort] at hf'
      obtain ⟨f0, hf0, rfl⟩ := List.mem_map.mp hf'
      exact h f0 (List.mem_of_mem_filter hf0)
    have hprep : preparedTransformFrames fs = [] := by
      unfold preparedTransformFrames
      rw [List.filter_eq_nil_iff]
      intro a ha
      simp [hv a ha]
    have hprepR : preparedTransformFramesR rot fovR fs = [] := by
      unfold preparedTransformFramesR
      rw [List.filterMap_eq_nil_iff]
      intro a ha
      simp [frameToCameraR, hv a ha]
    refine ⟨hprep, hprepR, ?_, ?_, ?_, ?_⟩
    · rw [hprepR]
      rfl
    · rw [hprepR]
      simp [stepTransformFrame]
    · rw [hprepR]
      have hpick : pickNearestFrameForCurrentView bh lp lf liveFov [] = -1 := rfl
      simp [gotoNearestRun, hpick]
    · rw [hprepR]
      by_cases hcur : (0 : ℤ) ≤ cur
      · have hcond : cur < 0 ∨ ((List.length ([] : List PreparedFrameR) : ℤ)) ≤ cur := by
          right
          simpa using hcur
        simp [gotoCurrentRun, gotoTransformFrameIndex, hcur, hcond]
      · simp [gotoCurrentRun, hcur]

/-- Witness for C6: a single frame whose matrix has only two rows. -/
theorem malformed_matrices_leave_dataset_empty_witness :
    (∀ f ∈ [(⟨some ("a.png"), none, some [[0, 0], [0, 0]]⟩ : TransformFrame)],
      frameMatrixValid f.transform_matrix = false) ∧
    (preparedTransformFrames [(⟨some ("a.png"), none, some [[0, 0], [0, 0]]⟩ : TransformFrame)] = [] ∧
      preparedTransformFramesR none 50
        [(⟨some ("a.png"), none, some [[0, 0], [0, 0]]⟩ : TransformFrame)] = [] ∧
      pickNearestFrameForCurrentView ⟨1, 1, 1⟩ ⟨0, 0, 0⟩ ⟨0, 0, 1⟩ 50
        (preparedTransformFramesR none 50
          [(⟨some ("a.png"), none, some [[0, 0], [0, 0]]⟩ : TransformFrame)]) = -1 ∧
      stepTransformFrame ⟨1, 1, 1⟩ ⟨0, 0, 0⟩ ⟨0, 0, 1⟩ 50
        (preparedTransformFramesR none 50
          [(⟨some ("a.png"), none, some [[0, 0], [0, 0]]⟩ : TransformFrame)]) (-1) 1 = (-1, []) ∧
      gotoNearestRun ⟨1, 1, 1⟩ ⟨0, 0, 0⟩ ⟨0, 0, 1⟩ 50
        (preparedTransformFramesR none 50
          [(⟨some ("a.png"), none, some [[0, 0], [0, 0]]⟩ : TransformFrame)]) (-1) = (-1, []) ∧
      gotoCurrentRun (preparedTransformFramesR none 50
          [(⟨some ("a.png"), none, some [[0, 0], [0, 0]]⟩ : TransformFrame)]).length (-1) =
        (-1, [])) :=
  ⟨by decide,
    (malformed_matrices_leave_dataset_empty
      [(⟨some ("a.png"), none, some [[0, 0], [0, 0]]⟩ : TransformFrame)]
      none 50 ⟨1, 1, 1⟩ ⟨0, 0, 0⟩ ⟨0, 0, 1⟩ 50 (-1) 1).2.2.2 (by decide)⟩

/-- Stepping with a valid current selection always lands on
`(cur + st + n) % n` and stores it. -/
theorem stepTransformFrame_of_nonneg (bh lp lf : Vec3R) (liveFov : ℝ)
    (prepared : List PreparedFrameR) (cur st : ℤ) (hne : prepared ≠ [])
    (h0 : 0 ≤ cur) :
    (stepTransformFrame bh lp lf liveFov prepared cur st).1 =
      (cur + st + (prepared.length : ℤ)) % (prepared.length : ℤ) := by
  have hn : prepared.length ≠ 0 := fun hz => hne (List.length_eq_zero.mp hz)
  unfold stepTransformFrame
  rw [if_neg hn]
  rw [if_neg (not_lt.mpr h0)]
  simp only
  rw [if_neg (not_lt.mpr h0)]
  unfold gotoTransformFrameIndex
  by_cases hr : (cur + st + (prepared.length : ℤ)) % (prepared.length : ℤ) < 0 ∨
      ((prepared.length : ℕ) : ℤ) ≤ (cur + st + (prepared.length : ℤ)) % (prepared.length : ℤ)
  · rw [if_pos hr]
  · rw [if_neg hr]

/-- C9.  Next/previous navigation is cyclic modular stepping: with a valid
selection `cur` in a dataset of size `n`, a next request selects
`(cur+1) % n` (so the last frame wraps to the first) and a previous request
selects `(cur-1+n) % n`; with no selection (`cur = -1`) the step first picks
the nearest frame and then steps from it. -/
theorem step_navigation_is_cyclic_modular (bh lp lf : Vec3R) (liveFov : ℝ)
    (prepared : List PreparedFrameR) (cur : ℤ) (hne : prepared ≠ []) :
    (0 ≤ cur → cur < (prepared.length : ℤ) →
      ((stepTransformFrame bh lp lf liveFov prepared cur 1).1 =
        (cur + 1) % (prepared.length : ℤ) ∧
      (stepTransformFrame bh lp lf liveFov prepared cur (-1)).1 =
        (cur - 1 + (prepared.length : ℤ)) % (prepared.length : ℤ) ∧
      (cur = (prepared.length : ℤ) - 1 →
        (stepTransformFrame bh lp lf liveFov prepared cur 1).1 = 0))) ∧
    (cur = -1 → ∀ st : ℤ,
      (stepTransformFrame bh lp lf liveFov prepared cur st).1 =
        (pickNearestFrameForCurrentView bh lp lf liveFov prepared + st +
          (prepared.length : ℤ)) % (prepared.length : ℤ)) := by
  have hn : prepared.length ≠ 0 := fun hz => hne (List.length_eq_zero.mp hz)
  have hnpos : (0 : ℤ) < (prepared.length : ℤ) := by
    exact_mod_cast Nat.pos_of_ne_zero hn
  constructor
  · intro h0 _
    refine ⟨?_, ?_, ?_⟩
    · rw [stepTransformFrame_of_nonneg bh lp lf liveFov prepared cur 1 hne h0]
      have := Int.add_mul_emod_self_left (cur + 1) (prepared.length : ℤ) 1
      simpa using this
    · rw [stepTransformFrame_of_nonneg bh lp lf liveFov prepared cur (-1) hne h0]
      ring_nf
    · intro hlast
      rw [stepTransformFrame_of_nonneg bh lp lf liveFov prepared cur 1 hne h0, hlast]
      have hr : (prepared.length : ℤ) - 1 + 1 + (prepared.length : ℤ) =
          (prepared.length : ℤ) + (prepared.length : ℤ) := by ring
      rw [hr]
      simp [Int.add_emod]
  · intro hcur st
    subst hcur
    obtain ⟨k, hk, heq, -, -⟩ := pickNearest_spec bh lp lf liveFov prepared hne
    have hkz : (0 : ℤ) ≤ (k : ℤ) := Int.ofNat_nonneg k
    unfold stepTransformFrame
    rw [if_neg hn]
    rw [if_pos (by omega : (-1 : ℤ) < 0)]
    unfold pickNearestRun
    rw [heq]
    rw [if_neg (not_lt.mpr hkz)]
    simp only
    rw [if_neg (not_lt.mpr hkz)]
    unfold gotoTransformFrameIndex
    by_cases hr : ((k : ℤ) + st + (prepared.length : ℤ)) % (prepared.length : ℤ) < 0 ∨
        ((prepared.length : ℕ) : ℤ) ≤ ((k : ℤ) + st + (prepared.length : ℤ)) % (prepared.length : ℤ)
    · rw [if_pos hr]
    · rw [if_neg hr]

/-- Witness for C9 at a one-frame dataset with current selection 0. -/
theorem step_navigation_is_cyclic_modular_witness :
    ([(⟨⟨0, 0, 0⟩, ⟨0, 0, 1⟩, 60⟩ : PreparedFrameR)] ≠ []) ∧
    ((0 ≤ (0 : ℤ) → (0 : ℤ) < (([(⟨⟨0, 0, 0⟩, ⟨0, 0, 1⟩, 60⟩ : PreparedFrameR)]).length : ℤ) →
      ((stepTransformFrame ⟨1, 1, 1⟩ ⟨0, 0, 0⟩ ⟨0, 0, 1⟩ 60
          [(⟨⟨0, 0, 0⟩, ⟨0, 0, 1⟩, 60⟩ : PreparedFrameR)] 0 1).1 =
        ((0 : ℤ) + 1) % (([(⟨⟨0, 0, 0⟩, ⟨0, 0, 1⟩, 60⟩ : PreparedFrameR)]).length : ℤ) ∧
      (stepTransformFrame ⟨1, 1, 1⟩ ⟨0, 0, 0⟩ ⟨0, 0, 1⟩ 60
          [(⟨⟨0, 0, 0⟩, ⟨0, 0, 1⟩, 60⟩ : PreparedFrameR)] 0 (-1)).1 =
        ((0 : ℤ) - 1 + (([(⟨⟨0, 0, 0⟩, ⟨0, 0, 1⟩, 60⟩ : PreparedFrameR)]).length : ℤ)) %
          (([(⟨⟨0, 0, 0⟩, ⟨0, 0, 1⟩, 60⟩ : PreparedFrameR)]).length : ℤ) ∧
      ((0 : ℤ) = (([(⟨⟨0, 0, 0⟩, ⟨0, 0, 1⟩, 60⟩ : PreparedFrameR)]).length : ℤ) - 1 →
        (stepTransformFrame ⟨1, 1, 1⟩ ⟨0, 0, 0⟩ ⟨0, 0, 1⟩ 60
          [(⟨⟨0, 0, 0⟩, ⟨0, 0, 1⟩, 60⟩ : PreparedFrameR)] 0 1).1 = 0))) ∧
    ((0 : ℤ) = -1 → ∀ st : ℤ,
      (stepTransformFrame ⟨1, 1, 1⟩ ⟨0, 0, 0⟩ ⟨0, 0, 1⟩ 60
          [(⟨⟨0, 0, 0⟩, ⟨0, 0, 1⟩, 60⟩ : PreparedFrameR)] 0 st).1 =
        (pickNearestFrameForCurrentView ⟨1, 1, 1⟩ ⟨0, 0, 0⟩ ⟨0, 0, 1⟩ 60
            [(⟨⟨0, 0, 0⟩, ⟨0, 0, 1⟩, 60⟩ : PreparedFrameR)] + st +
          (([(⟨⟨0, 0, 0⟩, ⟨0, 0, 1⟩, 60⟩ : PreparedFrameR)]).length : ℤ)) %
          (([(⟨⟨0, 0, 0⟩, ⟨0, 0, 1⟩, 60⟩ : PreparedFrameR)]).length : ℤ))) :=
  ⟨List.cons_ne_nil _ _,
    step_navigation_is_cyclic_modular ⟨1, 1, 1⟩ ⟨0, 0, 0⟩ ⟨0, 0, 1⟩ 60
      [(⟨⟨0, 0, 0⟩, ⟨0, 0, 1⟩, 60⟩ : PreparedFrameR)] 0 (List.cons_ne_nil _ _)⟩

/-- C10.  The selected dataset index is always `-1` or a valid position:
nearest-match, goto-index and modular stepping all preserve the invariant,
and every fired `transformFrame:selected` payload carries an in-range index
together with the prepared dataset's size. -/
theorem selected_index_invariant_preserved (bh lp lf : Vec3R) (liveFov : ℝ)
    (prepared : List PreparedFrameR) (cur target st : ℤ)
    (h : validIdx prepared.length cur) :
    validIdx prepared.length (pickNearestRun bh lp lf liveFov prepared cur).1 ∧
    validIdx prepared.length (gotoTransformFrameIndex prepared.length target cur).1 ∧
    validIdx prepared.length (stepTransformFrame bh lp lf liveFov prepared cur st).1 ∧
    (∀ p ∈ (pickNearestRun bh lp lf liveFov prepared cur).2.2,
      0 ≤ p.1 ∧ p.1 < (prepared.length : ℤ) ∧ p.2 = prepared.length) ∧
    (∀ p ∈ (gotoTransformFrameIndex prepared.length target cur).2,
      0 ≤ p.1 ∧ p.1 < (prepared.length : ℤ) ∧ p.2 = prepared.length) ∧
    (∀ p ∈ (stepTransformFrame bh lp lf liveFov prepared cur st).2,
      0 ≤ p.1 ∧ p.1 < (prepared.length : ℤ) ∧ p.2 = prepared.length) := by
  have hpickv : validIdx prepared.length (pickNearestRun bh lp lf liveFov prepared cur).1 := by
    unfold pickNearestRun
    rcases pickNearest_cases bh lp lf liveFov prepared with hneg | ⟨hge, hlt⟩
    · rw [hneg]
      simpa using h
    · rw [if_neg (not_lt.mpr hge)]
      exact Or.inr ⟨hge, hlt⟩
  have hpicke : ∀ p ∈ (pickNearestRun bh lp lf liveFov prepared cur).2.2,
      0 ≤ p.1 ∧ p.1 < (prepared.length : ℤ) ∧ p.2 = prepared.length := by
    unfold pickNearestRun
    rcases pickNearest_cases bh lp lf liveFov prepared with hneg | ⟨hge, hlt⟩
    · rw [hneg]
      simp
    · rw [if_neg (not_lt.mpr hge)]
      exact emitSelectedTransformFrame_spec prepared.length _
  have hgotov : ∀ t c : ℤ, validIdx prepared.length c →
      validIdx prepared.length (gotoTransformFrameIndex prepared.length t c).1 := by
    intro t c hc
    unfold gotoTransformFrameIndex
    by_cases hrange : t < 0 ∨ (prepared.length : ℤ) ≤ t
    · rw [if_pos hrange]
      exact hc
    · rw [if_neg hrange]
      push_neg at hrange
      exact Or.inr hrange
  have hgotoe : ∀ t c : ℤ, ∀ p ∈ (gotoTransformFrameIndex prepared.length t c).2,
      0 ≤ p.1 ∧ p.1 < (prepared.length : ℤ) ∧ p.2 = prepared.length := by
    intro t c
    unfold gotoTransformFrameIndex
    by_cases hrange : t < 0 ∨ (prepared.length : ℤ) ≤ t
    · rw [if_pos hrange]
      simp
    · rw [if_neg hrange]
      exact emitSelectedTransformFrame_spec prepared.length t
  refine ⟨hpickv, hgotov target cur h, ?_, hpicke, hgotoe target cur, ?_⟩
  · unfold stepTransformFrame
    by_cases hn : prepared.length = 0
    · rw [if_pos hn]
      exact h
    · rw [if_neg hn]
      have hnpos : (0 : ℤ) < (prepared.length : ℤ) := by
        exact_mod_cast Nat.pos_of_ne_zero hn
      by_cases hcur : cur < 0
      · rw [if_pos hcur]
        by_cases hret : (pickNearestRun bh lp lf liveFov prepared cur).2.1 < 0
        · rw [if_pos hret]
          exact hpickv
        · rw [if_neg hret]
          simp only
          apply hgotov
          exact Or.inr ⟨Int.emod_nonneg _ (by omega), Int.emod_lt_of_pos _ hnpos⟩
      · rw [if_neg hcur]
        simp only
        rw [if_neg hcur]
        apply hgotov
        exact Or.inr ⟨Int.emod_nonneg _ (by omega), Int.emod_lt_of_pos _ hnpos⟩
  · unfold stepTransformFrame
    by_cases hn : prepared.length = 0
    · rw [if_pos hn]
      simp
    · rw [if_neg hn]
      have hnpos : (0 : ℤ) < (prepared.length : ℤ) := by
        exact_mod_cast Nat.pos_of_ne_zero hn
      by_cases hcur : cur < 0
      · rw [if_pos hcur]
        by_cases hret : (pickNearestRun bh lp lf liveFov prepared cur).2.1 < 0
        · rw [if_pos hret]
          exact hpicke
        · rw [if_neg hret]
          simp only
          intro p hp
          rcases List.mem_append.mp hp with hp1 | hp2
          · exact hpicke p hp1
          · exact hgotoe _ _ p hp2
      · rw [if_neg hcur]
        simp only
        rw [if_neg hcur]
        intro p hp
        rcases List.mem_append.mp hp with hp1 | hp2
        · exact absurd hp1 (List.not_mem_nil p)
        · exact hgotoe _ _ p hp2

/-- Witness for C10 at a one-frame dataset with no current selection. -/
theorem selected_index_invariant_preserved_witness :
    validIdx ([(⟨⟨0, 0, 0⟩, ⟨0, 0, 1⟩, 60⟩ : PreparedFrameR)]).length (-1) ∧
    (validIdx ([(⟨⟨0, 0, 0⟩, ⟨0, 0, 1⟩, 60⟩ : PreparedFrameR)]).length
        (pickNearestRun ⟨1, 1, 1⟩ ⟨0, 0, 0⟩ ⟨0, 0, 1⟩ 60
          [(⟨⟨0, 0, 0⟩, ⟨0, 0, 1⟩, 60⟩ : PreparedFrameR)] (-1)).1 ∧
      validIdx ([(⟨⟨0, 0, 0⟩, ⟨0, 0, 1⟩, 60⟩ : PreparedFrameR)]).length
        (gotoTransformFrameIndex ([(⟨⟨0, 0, 0⟩, ⟨0, 0, 1⟩, 60⟩ : PreparedFrameR)]).length 0 (-1)).1 ∧
      validIdx ([(⟨⟨0, 0, 0⟩, ⟨0, 0, 1⟩, 60⟩ : PreparedFrameR)]).length
        (stepTransformFrame ⟨1, 1, 1⟩ ⟨0, 0, 0⟩ ⟨0, 0, 1⟩ 60
          [(⟨⟨0, 0, 0⟩, ⟨0, 0, 1⟩, 60⟩ : PreparedFrameR)] (-1) 1).1 ∧
      (∀ p ∈ (pickNearestRun ⟨1, 1, 1⟩ ⟨0, 0, 0⟩ ⟨0, 0, 1⟩ 60
          [(⟨⟨0, 0, 0⟩, ⟨0, 0, 1⟩, 60⟩ : PreparedFrameR)] (-1)).2.2,
        0 ≤ p.1 ∧ p.1 < (([(⟨⟨0, 0, 0⟩, ⟨0, 0, 1⟩, 60⟩ : PreparedFrameR)]).length : ℤ) ∧
          p.2 = ([(⟨⟨0, 0, 0⟩, ⟨0, 0, 1⟩, 60⟩ : PreparedFrameR)]).length) ∧
      (∀ p ∈ (gotoTransformFrameIndex ([(⟨⟨0, 0, 0⟩, ⟨0, 0, 1⟩, 60⟩ : PreparedFrameR)]).length 0 (-1)).2,
        0 ≤ p.1 ∧ p.1 < (([(⟨⟨0, 0, 0⟩, ⟨0, 0, 1⟩, 60⟩ : PreparedFrameR)]).length : ℤ) ∧
          p.2 = ([(⟨⟨0, 0, 0⟩, ⟨0, 0, 1⟩, 60⟩ : PreparedFrameR)]).length) ∧
      (∀ p ∈ (stepTransformFrame ⟨1, 1, 1⟩ ⟨0, 0, 0⟩ ⟨0, 0, 1⟩ 60
          [(⟨⟨0, 0, 0⟩, ⟨0, 0, 1⟩, 60⟩ : PreparedFrameR)] (-1) 1).2,
        0 ≤ p.1 ∧ p.1 < (([(⟨⟨0, 0, 0⟩, ⟨0, 0, 1⟩, 60⟩ : PreparedFrameR)]).length : ℤ) ∧
          p.2 = ([(⟨⟨0, 0, 0⟩, ⟨0, 0, 1⟩, 60⟩ : PreparedFrameR)]).length)) :=
  ⟨Or.inl rfl,
    selected_index_invariant_preserved ⟨1, 1, 1⟩ ⟨0, 0, 0⟩ ⟨0, 0, 1⟩ 60
      [(⟨⟨0, 0, 0⟩, ⟨0, 0, 1⟩, 60⟩ : PreparedFrameR)] (-1) 0 1 (Or.inl rfl)⟩
